import Mathlib

/-!
Verification development for the quantconnect-trading-bot backend.

Shallow embedding of the ML signal-generation pipeline
(backend/services/ml_service.py: feature preparation, technical indicators,
prediction normalization, multi-model signal aggregation) and of the broker
registry (backend/services/broker_service.py: credential validation,
connect/disconnect bookkeeping, per-symbol signal execution).

Numeric values are exact rationals.  External collaborators (numpy random
draws, TA-Lib indicator kernels, numpy std, broker SDK connectors) are
modelled as explicit function parameters; everything written in the
repository itself is translated directly.
-/

namespace QCBot

/-! ### Signal aggregation (MLService._aggregate_signals) -/

/-- One per-model signal as produced by MLService._make_prediction.  The
raw_prediction and all_probabilities metadata echoes of the inputs are not
carried: the aggregation decision reads only type, strength and confidence,
and the model and algorithm fields identify the producer. -/
structure RawSignal where
  type : String
  strength : ℚ
  confidence : ℚ
  model : String
  algorithm : String
deriving DecidableEq

/-- np.mean of a list of rationals (the callers guard against empty lists). -/
def np_mean (l : List ℚ) : ℚ := l.sum / l.length

/-- weighted_strength = strength * confidence for one model entry. -/
def weighted (p : String × RawSignal) : ℚ := p.2.strength * p.2.confidence

/-- One iteration of the for-loop in _aggregate_signals: append the
confidence-weighted strength to the buy or sell vote list according to the
signal type, and accumulate total_confidence. -/
def vote_step (acc : List ℚ × List ℚ × ℚ) (p : String × RawSignal) :
    List ℚ × List ℚ × ℚ :=
  let w := weighted p
  ( if p.2.type = "buy" then acc.1 ++ [w] else acc.1,
    if p.2.type = "sell" then acc.2.1 ++ [w] else acc.2.1,
    acc.2.2 + p.2.confidence )

/-- The consensus signal returned by _aggregate_signals.  The wall-clock
timestamp field is outside the deterministic embedding and is not carried;
individual_signals is the input mapping, which Python compares as a dict,
i.e. insertion-order independent, hence a multiset of entries here. -/
structure AggregatedSignal where
  type : String
  strength : ℚ
  confidence : ℚ
  models_count : ℕ
  buy_votes : ℕ
  sell_votes : ℕ
  individual_signals : Multiset (String × RawSignal)
  source : String
deriving DecidableEq

/-- MLService._aggregate_signals: confidence-weighted voting over the
per-model signals of one symbol, iterated in mapping order. -/
def aggregate_signals (signals : List (String × RawSignal)) :
    Option AggregatedSignal :=
  if signals.isEmpty then none
  else
    let acc := signals.foldl vote_step ([], [], 0)
    let buy_votes := acc.1
    let sell_votes := acc.2.1
    let total_confidence := acc.2.2
    let buy_strength := if buy_votes.isEmpty then 0 else np_mean buy_votes
    let sell_strength := if sell_votes.isEmpty then 0 else np_mean sell_votes
    let avg_confidence := total_confidence / signals.length
    if buy_strength > sell_strength ∧ buy_strength > 2/5 then
      some { type := "buy", strength := buy_strength,
             confidence := avg_confidence, models_count := signals.length,
             buy_votes := buy_votes.length, sell_votes := sell_votes.length,
             individual_signals := ↑signals, source := "ml_aggregated" }
    else if sell_strength > buy_strength ∧ sell_strength > 2/5 then
      some { type := "sell", strength := sell_strength,
             confidence := avg_confidence, models_count := signals.length,
             buy_votes := buy_votes.length, sell_votes := sell_votes.length,
             individual_signals := ↑signals, source := "ml_aggregated" }
    else none

/-! Specification-side view of the aggregation: the vote buckets described
as filter-and-map over the entries, and the per-side mean. -/

/-- Vote bucket of one side, written as the spec describes it. -/
def side_votes (side : String) (signals : List (String × RawSignal)) :
    List ℚ :=
  (signals.filter (fun p => p.2.type == side)).map weighted

/-- Mean weighted strength of one side, 0 when the side has no votes. -/
def side_mean (side : String) (signals : List (String × RawSignal)) : ℚ :=
  if (side_votes side signals).isEmpty then 0
  else np_mean (side_votes side signals)

/-- Average confidence: sum of all input confidences over the model count. -/
def avg_conf (signals : List (String × RawSignal)) : ℚ :=
  (signals.map (fun p => p.2.confidence)).sum / signals.length

lemma vote_fold_eq (l : List (String × RawSignal))
    (acc : List ℚ × List ℚ × ℚ) :
    l.foldl vote_step acc =
      ( acc.1 ++ side_votes "buy" l,
        acc.2.1 ++ side_votes "sell" l,
        acc.2.2 + (l.map (fun p => p.2.confidence)).sum ) := by
  induction l generalizing acc with
  | nil => simp [side_votes]
  | cons hd tl ih =>
      have hns : ("buy" : String) ≠ "sell" := by decide
      simp only [List.foldl_cons, ih, side_votes, List.filter_cons,
        List.map_cons, List.sum_cons]
      by_cases hb : hd.2.type = "buy"
      · simp [vote_step, hb, hns.symm, side_votes, add_assoc, add_comm,
          add_left_comm]
      · by_cases hs : hd.2.type = "sell"
        · simp [vote_step, hb, hs, side_votes, add_assoc, add_comm,
            add_left_comm]
        · simp [vote_step, hb, hs, side_votes, add_assoc, add_comm,
            add_left_comm]

/-- Characterization of _aggregate_signals in terms of the spec-side vote
buckets and means. -/
lemma aggregate_signals_eq (l : List (String × RawSignal)) (h : ¬ l.isEmpty) :
    aggregate_signals l =
      (if side_mean "buy" l > side_mean "sell" l ∧ side_mean "buy" l > 2/5 then
        some { type := "buy", strength := side_mean "buy" l,
               confidence := avg_conf l, models_count := l.length,
               buy_votes := (side_votes "buy" l).length,
               sell_votes := (side_votes "sell" l).length,
               individual_signals := ↑l, source := "ml_aggregated" }
      else if side_mean "sell" l > side_mean "buy" l ∧
          side_mean "sell" l > 2/5 then
        some { type := "sell", strength := side_mean "sell" l,
               confidence := avg_conf l, models_count := l.length,
               buy_votes := (side_votes "buy" l).length,
               sell_votes := (side_votes "sell" l).length,
               individual_signals := ↑l, source := "ml_aggregated" }
      else none) := by
  simp only [aggregate_signals, h, if_neg, Bool.false_eq_true,
    vote_fold_eq, List.nil_append, side_mean, avg_conf, zero_add,
    if_false]

/-- C1: for every non-empty mapping of model names to raw signals with type
buy or sell and strength and confidence in the unit interval, the
aggregator buckets the confidence-weighted strengths by side, and returns
the side with the strictly higher mean weighted strength exactly when that
mean exceeds 0.4 (equal means, or no mean above 0.4, give none), with the
returned confidence equal to the sum of input confidences divided by the
model count. -/
theorem aggregate_signals_c1 (l : List (String × RawSignal))
    (hne : l ≠ [])
    (hty : ∀ p ∈ l, p.2.type = "buy" ∨ p.2.type = "sell")
    (hstr : ∀ p ∈ l, 0 ≤ p.2.strength ∧ p.2.strength ≤ 1)
    (hconf : ∀ p ∈ l, 0 ≤ p.2.confidence ∧ p.2.confidence ≤ 1) :
    aggregate_signals l =
      (if side_mean "buy" l > side_mean "sell" l ∧ side_mean "buy" l > 2/5 then
        some { type := "buy", strength := side_mean "buy" l,
               confidence := avg_conf l, models_count := l.length,
               buy_votes := (side_votes "buy" l).length,
               sell_votes := (side_votes "sell" l).length,
               individual_signals := ↑l, source := "ml_aggregated" }
      else if side_mean "sell" l > side_mean "buy" l ∧
          side_mean "sell" l > 2/5 then
        some { type := "sell", strength := side_mean "sell" l,
               confidence := avg_conf l, models_count := l.length,
               buy_votes := (side_votes "buy" l).length,
               sell_votes := (side_votes "sell" l).length,
               individual_signals := ↑l, source := "ml_aggregated" }
      else none) := by
  have h : ¬ l.isEmpty := by
    cases l with
    | nil => exact absurd rfl hne
    | cons a t => simp [List.isEmpty]
  exact aggregate_signals_eq l h

def sig_a : RawSignal := ⟨"buy", 9/10, 9/10, "m1", "random_forest"⟩

def sig_b : RawSignal := ⟨"buy", 4/5, 9/10, "m2", "gradient_boost"⟩

def c1list : List (String × RawSignal) := [("m1", sig_a), ("m2", sig_b)]

/-- Witness for C1 at the two-model positive example from the spec:
weighted strengths 0.81 and 0.72, mean 0.765 above 0.4, so a buy signal
with strength 0.765 and confidence 0.9 is produced. -/
theorem aggregate_signals_c1_witness :
    (c1list ≠ [] ∧ ∀ p ∈ c1list, p.2.type = "buy" ∨ p.2.type = "sell") ∧
    aggregate_signals c1list =
      some { type := "buy", strength := 153/200, confidence := 9/10,
             models_count := 2, buy_votes := 2, sell_votes := 0,
             individual_signals := ↑c1list, source := "ml_aggregated" } := by
  refine ⟨⟨by simp [c1list], by simp [c1list, sig_a, sig_b]⟩, ?_⟩
  have h := aggregate_signals_c1 c1list (by simp [c1list])
    (by simp [c1list, sig_a, sig_b])
    (by norm_num [c1list, sig_a, sig_b])
    (by norm_num [c1list, sig_a, sig_b])
  rw [h]
  simp [side_mean, side_votes, np_mean, avg_conf, c1list, sig_a, sig_b,
    weighted]
  norm_num

/-! Claim C2 asserts that two buy signals of strength 0.5 and confidence 1.0
aggregate to none because the buy-side mean weighted strength would be 0.25.
The code computes weighted strength 0.5 times 1.0 = 0.5 for each entry, so
the buy-side mean is 0.5, above the 0.4 threshold, and a buy signal is
returned. -/

def c2list : List (String × RawSignal) :=
  [("m1", ⟨"buy", 1/2, 1, "m1", "rf"⟩), ("m2", ⟨"buy", 1/2, 1, "m2", "rf"⟩)]

/-- C2 counterexample: on the claimed input the aggregator does not return
none. -/
theorem aggregate_signals_c2_counterexample :
    (aggregate_signals c2list).isSome = true := by
  simp [aggregate_signals, c2list, vote_step, weighted, np_mean]
  norm_num

/-- C2 amended: on the input of two buy signals with strength 0.5 and
confidence 1.0, the buy-side mean weighted strength is 0.5, which exceeds
0.4, so the aggregator returns a buy signal of strength 0.5 and
confidence 1. -/
theorem aggregate_signals_c2_value :
    aggregate_signals c2list =
      some { type := "buy", strength := 1/2, confidence := 1,
             models_count := 2, buy_votes := 2, sell_votes := 0,
             individual_signals := ↑c2list, source := "ml_aggregated" } := by
  simp [aggregate_signals, c2list, vote_step, weighted, np_mean]
  norm_num

/-- C3: the aggregator is order-independent: permuting the entries of the
input model-to-signal mapping yields an identical result (identical
AggregatedSignal fields, or identically none). -/
theorem aggregate_signals_perm (s1 s2 : List (String × RawSignal))
    (hp : s1.Perm s2) :
    aggregate_signals s1 = aggregate_signals s2 := by
  by_cases he : s1.isEmpty
  · have he2 : s2.isEmpty := by
      cases s2 with
      | nil => rfl
      | cons a t =>
          cases s1 with
          | nil => exact absurd hp.symm (by simp)
          | cons b u => simp [List.isEmpty] at he
    simp [aggregate_signals, he, he2]
  · have he2 : ¬ s2.isEmpty := by
      cases s2 with
      | nil =>
          cases s1 with
          | nil => exact absurd rfl he
          | cons b u => exact absurd hp (by simp)
      | cons a t => simp [List.isEmpty]
    rw [aggregate_signals_eq s1 he, aggregate_signals_eq s2 he2]
    have hv : ∀ side, (side_votes side s1).Perm (side_votes side s2) :=
      fun side => (hp.filter _).map _
    have hm : ∀ side, side_mean side s1 = side_mean side s2 := by
      intro side
      have hlen := (hv side).length_eq
      have hemp : (side_votes side s1).isEmpty =
          (side_votes side s2).isEmpty := by
        cases h1 : side_votes side s1 <;> cases h2 : side_votes side s2 <;>
          simp_all
      unfold side_mean np_mean
      rw [(hv side).sum_eq, hlen, hemp]
    have hl : ∀ side, (side_votes side s1).length =
        (side_votes side s2).length := fun side => (hv side).length_eq
    have hc : avg_conf s1 = avg_conf s2 := by
      unfold avg_conf
      rw [(hp.map _).sum_eq, hp.length_eq]
    have hms : (↑s1 : Multiset (String × RawSignal)) = ↑s2 :=
      Multiset.coe_eq_coe.mpr hp
    rw [hm "buy", hm "sell", hl "buy", hl "sell", hc, hms, hp.length_eq]

/-- Witness for C3 at a concrete two-entry mapping and its swap. -/
theorem aggregate_signals_perm_witness :
    aggregate_signals [("m1", sig_a), ("m2", sig_b)] =
      aggregate_signals [("m2", sig_b), ("m1", sig_a)] :=
  aggregate_signals_perm _ _ (List.Perm.swap ("m2", sig_b) ("m1", sig_a) [])

/-! ### Prediction normalization (MLService._make_prediction and
MLService._map_prediction_to_signal) -/

/-- A Python value appearing as a class label or predict output: a string
or a number. -/
inductive PredVal where
  | str (s : String)
  | num (q : ℚ)
deriving DecidableEq

/-- Python str.lower, written as a characterwise map so that it reduces;
the lexicon below only ever compares ASCII words. -/
def str_lower (s : String) : String := ⟨s.data.map Char.toLower⟩

/-- MLService._map_prediction_to_signal: the class-label lexicon for
strings, and thresholds at plus and minus 0.5 for numbers. -/
def map_prediction_to_signal : PredVal → Option String
  | .str s =>
      let l := str_lower s
      if l = "buy" ∨ l = "long" ∨ l = "1" ∨ l = "up" ∨ l = "bullish" then
        some "buy"
      else if l = "sell" ∨ l = "short" ∨ l = "0" ∨ l = "-1" ∨ l = "down" ∨
          l = "bearish" then
        some "sell"
      else none
  | .num q => if q > 1/2 then some "buy" else if q < -(1/2) then some "sell"
      else none

/-- Index of the first maximum of a list, as np.argmax computes it. -/
def argmax_idx : List ℚ → ℕ
  | [] => 0
  | x :: xs =>
      let j := argmax_idx xs
      match xs.get? j with
      | none => 0
      | some m => if m > x then j + 1 else 0

/-- Output of one predict_proba call: the probability row and the classes_
attribute of the model. -/
structure ProbaOut where
  probs : List ℚ
  classes : List PredVal
deriving DecidableEq

/-- A loaded model, seen through the capabilities _make_prediction
dispatches on: an optional probability output, an optional plain predict
output, and an optional tensorflow vector output, each as a function of
the feature vector.  A missing capability is none. -/
structure MLModel where
  predictProba : Option (List ℚ → ProbaOut)
  predict : Option (List ℚ → PredVal)
  tfPredict : Option (List ℚ → List ℚ)

/-- The probability branch of _make_prediction.  Failures inside the inner
try block (empty probability row, class index out of range) and the
suppression cases (unmapped label, confidence at most 0.6) produce none,
which in the source means control falls through to the next branch. -/
def proba_branch (m : MLModel) (model_name algorithm : String)
    (features : List ℚ) : Option RawSignal :=
  match m.predictProba with
  | none => none
  | some f =>
      let out := f features
      match out.probs with
      | [] => none
      | _ :: _ =>
          let idx := argmax_idx out.probs
          match out.classes.get? idx, out.probs.get? idx with
          | some cls, some conf =>
              match map_prediction_to_signal cls with
              | some ty =>
                  if conf > 3/5 then
                    some ⟨ty, conf, conf, model_name, algorithm⟩
                  else none
              | none => none
          | _, _ => none

/-- The tensorflow branch of _make_prediction: scalar outputs threshold at
0.6 and 0.4; vector outputs use the argmax index (0 sell, 1 hold, else
buy) gated at confidence above 0.6. -/
def tf_branch (m : MLModel) (model_name algorithm : String)
    (features : List ℚ) : Option RawSignal :=
  match m.tfPredict with
  | none => none
  | some h =>
      match h features with
      | [v] =>
          if v > 3/5 then some ⟨"buy", min v 1, min v 1, model_name,
            algorithm⟩
          else if v < 2/5 then some ⟨"sell", min (1 - v) 1, min (1 - v) 1,
            model_name, algorithm⟩
          else none
      | pred =>
          if pred.length > 1 then
            let idx := argmax_idx pred
            match pred.get? idx with
            | some conf =>
                match idx with
                | 0 => if conf > 3/5 then
                    some ⟨"sell", conf, conf, model_name, algorithm⟩
                  else none
                | 1 => none
                | _ + 2 => if conf > 3/5 then
                    some ⟨"buy", conf, conf, model_name, algorithm⟩
                  else none
            | none => none
          else none

/-- The plain predict branch of _make_prediction: numeric outputs
threshold at plus and minus 0.1 (the dead zone returns none outright);
categorical outputs go through the lexicon with fixed strength and
confidence 0.7, and an unmapped label falls through to the tensorflow
branch. -/
def predict_branch (m : MLModel) (model_name algorithm : String)
    (features : List ℚ) : Option RawSignal :=
  match m.predict with
  | none => tf_branch m model_name algorithm features
  | some g =>
      match g features with
      | .num q =>
          if q > 1/10 then
            some ⟨"buy", min |q| 1, min |q| 1 * (4/5), model_name, algorithm⟩
          else if q < -(1/10) then
            some ⟨"sell", min |q| 1, min |q| 1 * (4/5), model_name,
              algorithm⟩
          else none
      | .str s =>
          match map_prediction_to_signal (.str s) with
          | some ty => some ⟨ty, 7/10, 7/10, model_name, algorithm⟩
          | none => tf_branch m model_name algorithm features

/-- MLService._make_prediction: the probability branch first; when it
produces nothing, the plain predict branch, then the tensorflow branch. -/
def make_prediction (m : MLModel) (model_name algorithm : String)
    (features : List ℚ) : Option RawSignal :=
  match proba_branch m model_name algorithm features with
  | some sig => some sig
  | none => predict_branch m model_name algorithm features

/-- Concrete model for C4: predict_proba gives the class buy with maximum
probability 0.55, and plain predict returns the categorical label buy. -/
def c4model : MLModel :=
  { predictProba := some (fun _ => ⟨[11/20, 9/20], [.str "buy", .str "sell"]⟩),
    predict := some (fun _ => .str "buy"),
    tfPredict := none }

/-- C4 counterexample: the claim says that a model exposing predict_proba
whose maximum class probability is not above 0.6 yields no signal at all,
but on this model with maximum probability 0.55 the code falls through to
the plain predict path and returns a buy signal of strength 0.7. -/
theorem make_prediction_c4_counterexample :
    make_prediction c4model "m" "rf" [0] =
      some ⟨"buy", 7/10, 7/10, "m", "rf"⟩ := by
  have hmap : map_prediction_to_signal (.str "buy") = some "buy" := by
    simp [map_prediction_to_signal, show str_lower "buy" = "buy" from rfl]
  norm_num [make_prediction, proba_branch, predict_branch, c4model,
    argmax_idx, hmap]

/-- C4 amended: for a model exposing predict_proba whose max-probability
class is a string label mapped by the lexicon, the probability branch
returns that signal with strength and confidence equal to the max
probability exactly when that probability exceeds 0.6; when it does not,
the code does not suppress the model but falls through to the plain
predict path, which for the same categorical label returns a fixed
0.7-strength signal. -/
theorem make_prediction_proba_amended (pf : List ℚ → ProbaOut)
    (model_name algorithm : String) (features : List ℚ)
    (s ty : String) (conf : ℚ)
    (hcls : (pf features).classes.get? (argmax_idx (pf features).probs) =
      some (.str s))
    (hconf : (pf features).probs.get? (argmax_idx (pf features).probs) =
      some conf)
    (hmap : map_prediction_to_signal (.str s) = some ty) :
    (conf > 3/5 → ∀ g tfp,
      make_prediction ⟨some pf, g, tfp⟩ model_name algorithm features =
        some ⟨ty, conf, conf, model_name, algorithm⟩) ∧
    (¬ conf > 3/5 →
      make_prediction ⟨some pf, some (fun _ => .str s), none⟩ model_name
          algorithm features =
        some ⟨ty, 7/10, 7/10, model_name, algorithm⟩) := by
  have hne : (pf features).probs ≠ [] := by
    intro h
    rw [h] at hconf
    simp [argmax_idx] at hconf
  rcases hp : (pf features).probs with _ | ⟨a, t⟩
  · exact absurd hp hne
  rw [hp] at hcls hconf
  constructor
  · intro hc g tfp
    simp only [make_prediction, proba_branch]
    simp only [hp, hcls, hconf, hmap]
    rw [if_pos hc]
  · intro hc
    simp only [make_prediction, proba_branch, predict_branch]
    simp only [hp, hcls, hconf, hmap]
    rw [if_neg hc]

def c4probs : ProbaOut := ⟨[7/10, 3/10], [.str "buy", .str "sell"]⟩

/-- Witness for amended C4: max probability 0.7 on the class buy, above
the 0.6 gate, so the probability branch emits the signal. -/
theorem make_prediction_proba_amended_witness :
    make_prediction ⟨some (fun _ => c4probs), none, none⟩ "m" "rf" [0] =
      some ⟨"buy", 7/10, 7/10, "m", "rf"⟩ :=
  (make_prediction_proba_amended (fun _ => c4probs) "m" "rf" [0] "buy"
    "buy" (7/10)
    (by norm_num [c4probs, argmax_idx])
    (by norm_num [c4probs, argmax_idx])
    (by simp [map_prediction_to_signal,
      show str_lower "buy" = "buy" from rfl])).1 (by norm_num) none none

/-! ### Feature preparation (MLService._prepare_features,
MLService._simulate_historical_data,
MLService._calculate_technical_indicators) -/

/-- A Python value stored in a market-data mapping: either a number, or a
value on which float() raises (any non-numeric payload). -/
inductive PyVal where
  | num (q : ℚ)
  | nonNumeric
deriving DecidableEq

/-- Python float() on a mapping value: none models the raised exception. -/
def pyFloat : PyVal → Option ℚ
  | .num q => some q
  | .nonNumeric => none

/-- One market tick as read by _prepare_features; absent keys are none. -/
structure MarketTick where
  last : Option PyVal
  price : Option PyVal
  volume : Option PyVal
  bid : Option PyVal
  ask : Option PyVal
  high : Option PyVal
  low : Option PyVal
  change : Option PyVal
  percentage : Option PyVal
deriving DecidableEq

/-- MLService._simulate_historical_data.  The numpy generator is the
external parameter gen, mapping a seed and a draw count to the drawn
returns; rngState is the ambient global generator state, which the source
discards by calling np.random.seed(42) before drawing.  The loop walks the
returns except the final one in reversed order, prepending
prices[0] * (1 + ret) each time. -/
def simulate_historical_data (gen : ℕ → ℕ → List ℚ) (rngState : ℕ)
    (current_price : ℚ) (length : ℕ) : List ℚ :=
  let returns := gen 42 length
  returns.dropLast.foldr
    (fun ret ps =>
      match ps with
      | [] => [current_price]
      | p :: _ => p * (1 + ret) :: ps)
    [current_price]

/-- prices[-n:] in numpy slicing. -/
def lastN (n : ℕ) (l : List ℚ) : List ℚ := l.drop (l.length - n)

/-- prices[-1]; the callers only apply it to non-empty price windows. -/
def lastD (l : List ℚ) : ℚ := l.getLastD 0

/-- np.diff. -/
def npDiff (l : List ℚ) : List ℚ := (l.zip l.tail).map (fun p => p.2 - p.1)

/-- np.max of a non-empty window. -/
def npMax : List ℚ → ℚ
  | [] => 0
  | x :: xs => xs.foldl max x

/-- np.min of a non-empty window. -/
def npMin : List ℚ → ℚ
  | [] => 0
  | x :: xs => xs.foldl min x

/-- The TA-Lib indicator kernels used by the TALIB_AVAILABLE branch,
external to the repository.  Each returns the final element of the
indicator series; none models a NaN output.  noiseHigh and noiseLow are
the uniformly perturbed copies of the price series the source builds with
np.random.uniform for the stochastic oscillator. -/
structure TalibFns where
  sma10 : List ℚ → Option ℚ
  sma20 : List ℚ → Option ℚ
  ema12 : List ℚ → Option ℚ
  rsi14 : List ℚ → Option ℚ
  macd : List ℚ → Option ℚ × Option ℚ × Option ℚ
  bbands20 : List ℚ → Option ℚ × Option ℚ × Option ℚ
  stoch : List ℚ → List ℚ → List ℚ → Option ℚ × Option ℚ
  noiseHigh : List ℚ → List ℚ
  noiseLow : List ℚ → List ℚ

/-- MLService._calculate_technical_indicators.  err models an exception
escaping the try block, which the except branch answers with ten copies of
the final price.  A TA-Lib NaN that the source leaves unguarded is mapped
to 0 here, which is exactly what the np.nan_to_num stage of
_prepare_features does to it before any other use. -/
def calculate_technical_indicators (talibAvailable : Bool) (t : TalibFns)
    (npStd : List ℚ → ℚ) (err : Bool) (prices : List ℚ) : List ℚ :=
  if err then List.replicate 10 (lastD prices)
  else if talibAvailable then
    (if prices.length ≥ 20 then
      [ (if prices.length ≥ 10 then (t.sma10 prices).getD 0
         else lastD prices),
        (t.sma20 prices).getD 0,
        (if prices.length ≥ 12 then (t.ema12 prices).getD 0
         else lastD prices) ]
     else [lastD prices, lastD prices, lastD prices])
    ++ [ if prices.length ≥ 14 then (t.rsi14 prices).getD 50 else 50 ]
    ++ (if prices.length ≥ 26 then
          let m := t.macd prices
          [m.1.getD 0, m.2.1.getD 0, m.2.2.getD 0]
        else [0, 0, 0])
    ++ [ if prices.length ≥ 20 then
          match (t.bbands20 prices).1, (t.bbands20 prices).2.2 with
          | some up, some lo =>
              if up ≠ lo then (lastD prices - lo) / (up - lo) else 1/2
          | _, _ => 1/2
         else 1/2 ]
    ++ (if prices.length ≥ 14 then
          let hk := t.stoch (t.noiseHigh prices) (t.noiseLow prices) prices
          [hk.1.getD 50, hk.2.getD 50]
        else [50, 50])
  else
    (if prices.length ≥ 20 then
      [ (if prices.length ≥ 10 then np_mean (lastN 10 prices)
         else lastD prices),
        np_mean (lastN 20 prices),
        lastD prices ]
     else [lastD prices, lastD prices, lastD prices])
    ++ [ if prices.length ≥ 14 then
          let changes := npDiff (lastN 15 prices)
          let gains := changes.filter (fun c => c > 0)
          let losses := (changes.filter (fun c => c < 0)).map (fun c => -c)
          let avg_gain := if gains.length > 0 then np_mean gains else 0
          let avg_loss := if losses.length > 0 then np_mean losses else 0
          let rs := if avg_loss ≠ 0 then avg_gain / avg_loss else 100
          100 - 100 / (1 + rs)
         else 50 ]
    ++ (if prices.length ≥ 26 then
          let e12 := np_mean (lastN 12 prices)
          let e26 := np_mean (lastN 26 prices)
          let mac := e12 - e26
          let sig := mac * (4/5)
          [mac, sig, mac - sig]
        else [0, 0, 0])
    ++ [ if prices.length ≥ 20 then
          let sma := np_mean (lastN 20 prices)
          let sd := npStd (lastN 20 prices)
          let up := sma + 2 * sd
          let lo := sma - 2 * sd
          if up ≠ lo then (lastD prices - lo) / (up - lo) else 1/2
         else 1/2 ]
    ++ (if prices.length ≥ 14 then
          let recent := lastN 14 prices
          let hi := npMax recent
          let lo := npMin recent
          let k := if hi ≠ lo then (lastD prices - lo) / (hi - lo) * 100
            else 50
          [k, k * (4/5)]
        else [50, 50])

/-- A fitted StandardScaler-style transformer: transform requires the
fitted dimension and returns (x - mean) / scale componentwise; a shape
mismatch raises, which the caller's except turns into none. -/
structure Scaler where
  mean : List ℚ
  scale : List ℚ
deriving DecidableEq

def Scaler.transform (s : Scaler) (xs : List ℚ) : Option (List ℚ) :=
  if xs.length = s.mean.length ∧ s.mean.length = s.scale.length then
    some ((xs.zip (s.mean.zip s.scale)).map
      (fun p => (p.1 - p.2.1) / p.2.2))
  else none

/-- The external numeric environment of the Feature Builder: the
TALIB_AVAILABLE flag, the TA-Lib kernels, np.std, and the seeded numpy
normal generator. -/
structure FBEnv where
  talibAvailable : Bool
  talib : TalibFns
  npStd : List ℚ → ℚ
  gen : ℕ → ℕ → List ℚ

/-- Wall-clock components read from datetime.now(). -/
structure TimeParams where
  hour : ℕ
  weekday : ℕ
  month : ℕ
deriving DecidableEq

/-- np.nan_to_num over the feature vector.  In the exact-rational
embedding no NaN or infinity can arise at this point, so the replacement
stage is the identity. -/
def nan_to_num (xs : List ℚ) : List ℚ := xs

/-- The float() coercions of the basic block of _prepare_features: the
price (from last, then price, defaulting to 0) and the ten basic features
in their source order.  Any failing coercion raises, making the whole
preparation fail. -/
def parse_tick (md : MarketTick) : Option (ℚ × List ℚ) :=
  (pyFloat (md.last.getD (md.price.getD (.num 0)))).bind fun price =>
  (pyFloat (md.volume.getD (.num 0))).bind fun volume =>
  (match md.bid with
    | some v => pyFloat v
    | none => some price).bind fun bid =>
  (match md.ask with
    | some v => pyFloat v
    | none => some price).bind fun ask =>
  (match md.high with
    | some v => pyFloat v
    | none => some price).bind fun high =>
  (match md.low with
    | some v => pyFloat v
    | none => some price).bind fun low =>
  (pyFloat (md.change.getD (.num 0))).bind fun change =>
  (pyFloat (md.percentage.getD (.num 0))).bind fun pct =>
  some (price, [price, volume, bid, ask, ask - bid, (ask + bid) / 2, high,
    low, change, pct])

/-- MLService._prepare_features: ten basic features read from the tick
with float() coercions, ten technical indicators over the simulated
100-point history, three normalized time encodings, then nan_to_num and
the optional per-model scaler.  none models any exception caught by the
enclosing try. -/
def prepare_features (env : FBEnv) (scaler : Option Scaler) (err : Bool)
    (rngState : ℕ) (md : MarketTick) (now : TimeParams) :
    Option (List ℚ) :=
  (parse_tick md).bind fun pb =>
  let basic := pb.2
  let hist := simulate_historical_data env.gen rngState pb.1 100
  let tech := calculate_technical_indicators env.talibAvailable env.talib
    env.npStd err hist
  let timef := [(now.hour : ℚ) / 24, (now.weekday : ℚ) / 6,
    (now.month : ℚ) / 12]
  let feats := nan_to_num (basic ++ tech ++ timef)
  match scaler with
  | none => some feats
  | some s => s.transform feats

/-! ### The signal-generation loop (MLService.generate_signals) -/

/-- One loaded model with its registered metadata: the per-model scaler
registration, the truthiness of model_info.features, and the optional
parameters symbols list used by the symbol-support check. -/
structure LoadedModel where
  name : String
  algorithm : String
  model : MLModel
  scaler : Option Scaler
  featuresNonempty : Bool
  symbolsParam : Option (List String)

/-- The symbol-support check of generate_signals: skip the model when
model_info.features is truthy, a symbols parameter exists, and it is a
non-empty list not containing the symbol. -/
def model_skips (lm : LoadedModel) (symbol : String) : Bool :=
  lm.featuresNonempty &&
    match lm.symbolsParam with
    | some sup => !sup.isEmpty && !(sup.contains symbol)
    | none => false

/-- One iteration of the inner model loop of generate_signals. -/
def gen_symbol_step (env : FBEnv) (err : Bool) (rng : ℕ) (symbol : String)
    (md : MarketTick) (now : TimeParams)
    (acc : List (String × RawSignal)) (lm : LoadedModel) :
    List (String × RawSignal) :=
  if model_skips lm symbol then acc
  else
    match prepare_features env lm.scaler err rng md now with
    | none => acc
    | some feats =>
        match make_prediction lm.model lm.name lm.algorithm feats with
        | none => acc
        | some sig => acc ++ [(lm.name, sig)]

/-- The inner model loop of generate_signals for one symbol: models whose
feature preparation or prediction yields nothing are skipped, the rest
contribute their signal under their model name. -/
def gen_symbol_signals (env : FBEnv) (models : List LoadedModel)
    (err : Bool) (rng : ℕ) (symbol : String) (md : MarketTick)
    (now : TimeParams) : List (String × RawSignal) :=
  models.foldl (gen_symbol_step env err rng symbol md now) []

/-- One iteration of the outer symbol loop of generate_signals. -/
def gen_market_step (env : FBEnv) (models : List LoadedModel) (err : Bool)
    (rng : ℕ) (now : TimeParams)
    (acc : List (String × AggregatedSignal)) (p : String × MarketTick) :
    List (String × AggregatedSignal) :=
  let syms := gen_symbol_signals env models err rng p.1 p.2 now
  if syms.isEmpty then acc
  else
    match aggregate_signals syms with
    | none => acc
    | some agg => acc ++ [(p.1, agg)]

/-- MLService.generate_signals: empty result without loaded models;
otherwise each symbol contributes its aggregated consensus signal when
one exists. -/
def generate_signals (env : FBEnv) (models : List LoadedModel) (err : Bool)
    (rng : ℕ) (market : List (String × MarketTick)) (now : TimeParams) :
    List (String × AggregatedSignal) :=
  if models.isEmpty then []
  else market.foldl (gen_market_step env models err rng now) []

/-! ### Length and determinism lemmas for the Feature Builder -/

lemma parse_tick_length (md : MarketTick) (pb : ℚ × List ℚ)
    (h : parse_tick md = some pb) : pb.2.length = 10 := by
  unfold parse_tick at h
  simp only [Option.bind_eq_some, Option.some.injEq] at h
  obtain ⟨price, -, volume, -, bid, -, ask, -, high, -, low, -, change, -,
    pct, -, h⟩ := h
  subst h
  rfl

lemma calc_indicators_length (ta : Bool) (t : TalibFns)
    (npStd : List ℚ → ℚ) (err : Bool) (prices : List ℚ) :
    (calculate_technical_indicators ta t npStd err prices).length = 10 := by
  unfold calculate_technical_indicators
  split
  · simp
  · split <;>
      simp [List.length_append, apply_ite List.length, ite_self]

/-- The output length determined by a scaler registration. -/
def scaler_out_length : Option Scaler → ℕ
  | none => 23
  | some s => s.mean.length

lemma prepare_features_some_length (env : FBEnv) (scaler : Option Scaler)
    (err : Bool) (rng : ℕ) (md : MarketTick) (now : TimeParams)
    (f : List ℚ) (h : prepare_features env scaler err rng md now = some f) :
    f.length = scaler_out_length scaler := by
  unfold prepare_features at h
  simp only [Option.bind_eq_some] at h
  obtain ⟨pb, hpb, h⟩ := h
  have hb : pb.2.length = 10 := parse_tick_length md pb hpb
  cases scaler with
  | none =>
      simp only [nan_to_num, Option.some.injEq] at h
      subst h
      simp [scaler_out_length, List.length_append, hb,
        calc_indicators_length]
  | some s =>
      simp only [nan_to_num, Scaler.transform] at h
      split at h
      · next hguard =>
          simp only [Option.some.injEq] at h
          subst h
          simp only [scaler_out_length, List.length_map, List.length_zip,
            hguard.1, ← hguard.2]
          omega
      · exact absurd h (by simp)

/-- C6: under one Feature Builder configuration (same environment, same
scaler registration), any two successful feature preparations produce
vectors of the same length, whatever the ticks, the clock, the generator
state, and whether indicator computation fell back to its error default. -/
theorem prepare_features_const_length (env : FBEnv) (scaler : Option Scaler)
    (e1 e2 : Bool) (r1 r2 : ℕ) (t1 t2 : MarketTick) (n1 n2 : TimeParams)
    (f1 f2 : List ℚ)
    (h1 : prepare_features env scaler e1 r1 t1 n1 = some f1)
    (h2 : prepare_features env scaler e2 r2 t2 n2 = some f2) :
    f1.length = f2.length := by
  rw [prepare_features_some_length env scaler e1 r1 t1 n1 f1 h1,
    prepare_features_some_length env scaler e2 r2 t2 n2 f2 h2]

/-- TA-Lib stub whose kernels always report NaN; only used to build
concrete witnesses. -/
def trivial_talib : TalibFns :=
  ⟨fun _ => none, fun _ => none, fun _ => none, fun _ => none,
   fun _ => (none, none, none), fun _ => (none, none, none),
   fun _ _ _ => (none, none), id, id⟩


/-- A concrete numeric environment for witnesses: no TA-Lib, zero standard
deviations and zero normal draws. -/
def env0 : FBEnv :=
  ⟨false, trivial_talib, fun _ => 0, fun _ n => List.replicate n 0⟩

def tick_a : MarketTick :=
  ⟨some (.num 100), none, some (.num 5), some (.num 99), some (.num 101),
   some (.num 102), some (.num 98), some (.num 1), some (.num (1/2))⟩

def tick_b : MarketTick :=
  ⟨none, some (.num 50), none, none, none, none, none, none, none⟩

/-- Witness for C6 at two concrete ticks, one run through the indicator
error fallback and one through the normal indicator path. -/
theorem prepare_features_const_length_witness :
    ((prepare_features env0 none true 0 tick_a ⟨1, 2, 3⟩).getD []).length =
      ((prepare_features env0 none false 5 tick_b ⟨4, 5, 6⟩).getD
        []).length :=
  prepare_features_const_length env0 none true false 0 5 tick_a tick_b
    ⟨1, 2, 3⟩ ⟨4, 5, 6⟩ _ _ rfl rfl

/-- A tick carrying no price information at all. -/
def empty_tick : MarketTick :=
  ⟨none, none, none, none, none, none, none, none, none⟩

/-- C5 counterexample: a tick with neither a last nor a price key does not
make feature building fail; the price defaults to 0 and a feature vector
is returned. -/
theorem prepare_features_c5_counterexample :
    (prepare_features env0 none false 0 empty_tick ⟨0, 0, 1⟩).isSome =
      true := rfl

lemma gen_symbol_signals_of_parse_none (env : FBEnv)
    (models : List LoadedModel) (err : Bool) (rng : ℕ) (sym : String)
    (md : MarketTick) (now : TimeParams) (h : parse_tick md = none) :
    gen_symbol_signals env models err rng sym md now = [] := by
  have hprep : ∀ sc, prepare_features env sc err rng md now = none := by
    intro sc
    unfold prepare_features
    rw [h]
    rfl
  have hstep : ∀ acc lm, gen_symbol_step env err rng sym md now acc lm =
      acc := by
    intro acc lm
    unfold gen_symbol_step
    rw [hprep lm.scaler]
    split <;> rfl
  unfold gen_symbol_signals
  induction models with
  | nil => rfl
  | cons lm t ih => rw [List.foldl_cons, hstep, ih]

/-- C5 amended: when the price value of a tick is unusable (float() raises
on it), feature preparation fails with none for every scaler
registration, and the generate_signals caller skips that symbol entirely,
leaving every other entry of the batch unaffected.  A tick with no price
key at all is instead parsed with the 0 default. -/
theorem prepare_features_unusable_price (env : FBEnv)
    (models : List LoadedModel) (scaler : Option Scaler) (err : Bool)
    (rng : ℕ) (now : TimeParams) (sym : String)
    (pre post : List (String × MarketTick)) (md : MarketTick)
    (h : pyFloat (md.last.getD (md.price.getD (.num 0))) = none) :
    prepare_features env scaler err rng md now = none ∧
    generate_signals env models err rng (pre ++ (sym, md) :: post) now =
      generate_signals env models err rng (pre ++ post) now := by
  have hpt : parse_tick md = none := by
    unfold parse_tick
    rw [h]
    rfl
  constructor
  · unfold prepare_features
    rw [hpt]
    rfl
  · unfold generate_signals
    by_cases hm : models.isEmpty
    · simp [hm]
    · simp only [hm, if_false, Bool.false_eq_true]
      rw [List.foldl_append, List.foldl_append, List.foldl_cons]
      have : ∀ acc, gen_market_step env models err rng now acc (sym, md) =
          acc := by
        intro acc
        unfold gen_market_step
        rw [gen_symbol_signals_of_parse_none env models err rng sym md now
          hpt]
        rfl
      rw [this]

def bad_tick : MarketTick :=
  ⟨some .nonNumeric, none, none, none, none, none, none, none, none⟩

def model0 : LoadedModel := ⟨"m", "rf", ⟨none, none, none⟩, none, false,
  none⟩

/-- Witness for amended C5: a tick whose last value cannot be coerced to
float fails preparation, and a two-symbol batch containing it produces the
same signals as the batch without it. -/
theorem prepare_features_unusable_price_witness :
    prepare_features env0 none false 0 bad_tick ⟨0, 0, 1⟩ = none ∧
    generate_signals env0 [model0] false 0
        [("EURUSD", bad_tick), ("GBPUSD", tick_b)] ⟨0, 0, 1⟩ =
      generate_signals env0 [model0] false 0 [("GBPUSD", tick_b)]
        ⟨0, 0, 1⟩ :=
  prepare_features_unusable_price env0 [model0] none false 0 ⟨0, 0, 1⟩
    "EURUSD" [] [("GBPUSD", tick_b)] bad_tick rfl

lemma take_zip_eq {α β : Type} (l : List α) (m : List β) (n : ℕ) :
    (l.zip m).take n = (l.take n).zip (m.take n) := by
  induction l generalizing m n with
  | nil => simp
  | cons a t ih =>
      cases m with
      | nil => simp
      | cons b u =>
          cases n with
          | zero => simp
          | succ k => simp [ih]

lemma take20_append (basic tech t1 t2 : List ℚ) (hb : basic.length = 10)
    (ht : tech.length = 10) :
    (basic ++ tech ++ t1).take 20 = (basic ++ tech ++ t2).take 20 := by
  have h20 : (basic ++ tech).length = 20 := by simp [hb, ht]
  rw [show (20 : ℕ) = (basic ++ tech).length from h20.symm, List.take_left,
    List.take_left]

lemma transform_take20 (s : Scaler) (xs f : List ℚ)
    (h : s.transform xs = some f) :
    f.take 20 = ((xs.take 20).zip ((s.mean.zip s.scale).take 20)).map
      (fun p => (p.1 - p.2.1) / p.2.2) := by
  unfold Scaler.transform at h
  split at h
  · simp only [Option.some.injEq] at h
    subst h
    rw [← List.map_take, take_zip_eq]
  · exact absurd h (by simp)

/-- C10: the historical-data simulation reseeds the generator with the
constant 42 on every call, so its output does not depend on the ambient
generator state; consequently, for a fixed tick and configuration, the
first twenty features (the basic block and the indicator block, all the
non-time-based entries) of any two successful preparations coincide, even
across different generator states and clock readings. -/
theorem simulate_historical_data_deterministic :
    (∀ (gen : ℕ → ℕ → List ℚ) (s1 s2 : ℕ) (p : ℚ) (n : ℕ),
      simulate_historical_data gen s1 p n =
        simulate_historical_data gen s2 p n) ∧
    (∀ (env : FBEnv) (scaler : Option Scaler) (err : Bool) (r1 r2 : ℕ)
      (md : MarketTick) (n1 n2 : TimeParams) (f1 f2 : List ℚ),
      prepare_features env scaler err r1 md n1 = some f1 →
      prepare_features env scaler err r2 md n2 = some f2 →
      f1.take 20 = f2.take 20) := by
  constructor
  · intro gen s1 s2 p n
    rfl
  · intro env scaler err r1 r2 md n1 n2 f1 f2 h1 h2
    unfold prepare_features at h1 h2
    simp only [Option.bind_eq_some] at h1 h2
    obtain ⟨pb1, hpb1, h1⟩ := h1
    obtain ⟨pb2, hpb2, h2⟩ := h2
    rw [hpb1, Option.some.injEq] at hpb2
    subst hpb2
    have hsim : simulate_historical_data env.gen r2 pb1.1 100 =
        simulate_historical_data env.gen r1 pb1.1 100 := rfl
    rw [hsim] at h2
    have hb : pb1.2.length = 10 := parse_tick_length md pb1 hpb1
    have ht : (calculate_technical_indicators env.talibAvailable env.talib
        env.npStd err (simulate_historical_data env.gen r1 pb1.1 100)).length
        = 10 := calc_indicators_length ..
    cases scaler with
    | none =>
        simp only [nan_to_num, Option.some.injEq] at h1 h2
        subst h1
        subst h2
        exact take20_append _ _ _ _ hb ht
    | some s =>
        simp only [nan_to_num] at h1 h2
        rw [transform_take20 s _ f1 h1, transform_take20 s _ f2 h2,
          take20_append _ _ _ _ hb ht]

/-- Witness for C10: two different ambient generator states produce the
same simulated price window, and two preparations of one tick under
different states and clocks agree on their first twenty features. -/
theorem simulate_historical_data_deterministic_witness :
    simulate_historical_data (fun _ n => List.replicate n 0) 7 1 100 =
      simulate_historical_data (fun _ n => List.replicate n 0) 123 1 100 ∧
    ((prepare_features env0 none false 3 tick_a ⟨1, 2, 3⟩).getD
        []).take 20 =
      ((prepare_features env0 none false 9 tick_a ⟨7, 8, 9⟩).getD
        []).take 20 :=
  ⟨simulate_historical_data_deterministic.1 (fun _ n => List.replicate n 0)
      7 123 1 100,
   simulate_historical_data_deterministic.2 env0 none false 3 9 tick_a
      ⟨1, 2, 3⟩ ⟨7, 8, 9⟩ _ _ rfl rfl⟩

/-! ### Broker service (backend/services/broker_service.py) -/

/-- Python dict lookup over an association list, first match wins. -/
def dlookup {α : Type} : List (String × α) → String → Option α
  | [], _ => none
  | p :: rest, k => if p.1 = k then some p.2 else dlookup rest k

lemma dlookup_mem {α : Type} {l : List (String × α)} {k : String} {v : α}
    (h : dlookup l k = some v) : (k, v) ∈ l := by
  induction l with
  | nil => simp [dlookup] at h
  | cons p rest ih =>
      unfold dlookup at h
      split at h
      · next heq =>
          simp only [Option.some.injEq] at h
          subst h
          subst heq
          exact List.mem_cons_self ..
      · exact List.mem_cons_of_mem p (ih h)

/-- Python dict assignment over an association list: replace in place when
the key exists, append otherwise. -/
def dict_insert {α : Type} (l : List (String × α)) (k : String) (v : α) :
    List (String × α) :=
  if (dlookup l k).isSome then
    l.map (fun p => if p.1 = k then (k, v) else p)
  else l ++ [(k, v)]

/-- The catalog data connect_broker and _validate_credentials read: the
broker type and the connector class name.  The other BrokerInfo fields
(assets, features, deposits, leverage, api_class) are never consulted by
the modelled operations. -/
structure BrokerCatalogInfo where
  type : String
  connectorClass : String
deriving DecidableEq

/-- The supported_brokers catalog of BrokerService, name by name. -/
def supported_brokers : List (String × BrokerCatalogInfo) :=
  [ ("XM", ⟨"forex", "MT5Connector"⟩),
    ("IC Markets", ⟨"forex", "MT5Connector"⟩),
    ("RoboForex", ⟨"forex", "MT5Connector"⟩),
    ("InstaForex", ⟨"forex", "MT5Connector"⟩),
    ("FBS", ⟨"forex", "MT5Connector"⟩),
    ("XTB", ⟨"forex", "XTBConnector"⟩),
    ("Admiral Markets", ⟨"forex", "MT5Connector"⟩),
    ("IG Group", ⟨"cfd", "IGConnector"⟩),
    ("Plus500", ⟨"cfd", "Plus500Connector"⟩),
    ("SabioTrade", ⟨"forex", "SabioConnector"⟩),
    ("Binance", ⟨"crypto", "CCXTConnector"⟩),
    ("Coinbase Pro", ⟨"crypto", "CCXTConnector"⟩),
    ("Kraken", ⟨"crypto", "CCXTConnector"⟩),
    ("Bitstamp", ⟨"crypto", "CCXTConnector"⟩),
    ("Bitfinex", ⟨"crypto", "CCXTConnector"⟩),
    ("Gemini", ⟨"crypto", "CCXTConnector"⟩),
    ("Huobi", ⟨"crypto", "CCXTConnector"⟩),
    ("OKX", ⟨"crypto", "CCXTConnector"⟩),
    ("Bybit", ⟨"crypto", "CCXTConnector"⟩),
    ("KuCoin", ⟨"crypto", "CCXTConnector"⟩),
    ("Bittrex", ⟨"crypto", "CCXTConnector"⟩) ]

/-- BrokerService._validate_credentials: the required field list per
broker family, as the source branches on type and connector class. -/
def required_fields (info : BrokerCatalogInfo) : List String :=
  if info.type = "forex" ∧ info.connectorClass = "MT5Connector" then
    ["login", "password", "server"]
  else if info.type = "crypto" then ["api_key", "secret"]
  else ["api_key"]

/-- The required field list as claim C7 words it: MT5-style brokers by
connector class, crypto exchange-style by type, api_key otherwise. -/
def claim_required (info : BrokerCatalogInfo) : List String :=
  if info.connectorClass = "MT5Connector" then ["login", "password", "server"]
  else if info.type = "crypto" then ["api_key", "secret"]
  else ["api_key"]

/-- all(field in credentials for field in required_fields). -/
def validate_credentials (info : BrokerCatalogInfo)
    (creds : List (String × String)) : Bool :=
  (required_fields info).all (fun fld => (dlookup creds fld).isSome)

/-- A live connection record; the connector object itself lives behind
the oracle below, the registry state keeps the broker type and the
activity flag the source mutates. -/
structure BrokerConnection where
  broker_type : String
  is_active : Bool
deriving DecidableEq

/-- One recorded trade execution. -/
structure TradeExecution where
  broker_name : String
  symbol : String
  signal_type : String
  quantity : ℚ
  price : ℚ
  order_id : String
deriving DecidableEq

/-- The mutable state of BrokerService: the live connection map and the
trade history. -/
structure BState where
  connections : List (String × BrokerConnection)
  trade_history : List TradeExecution
deriving DecidableEq

/-- A signal handed to execute_signals for one symbol. -/
structure TradeSignal where
  type : String
  strength : ℚ
deriving DecidableEq

/-- What one connector execute_trade call does: return a result payload,
or raise. -/
inductive ConnectorResult where
  | ret (success : Bool) (order_id : String) (quantity price : ℚ)
      (error : String)
  | raise (msg : String)
deriving DecidableEq

/-- The external broker SDK behavior: whether _create_connector yields a
connector, whether connector.connect() succeeds, whether
connector.disconnect() raises, and what execute_trade does per broker,
symbol and signal. -/
structure BrokerOracle where
  createOk : String → List (String × String) → Bool
  connectOk : String → List (String × String) → Bool
  disconnectRaises : String → Bool
  execTrade : String → String → TradeSignal → ConnectorResult

/-- BrokerService.connect_broker: unsupported name, failed validation, or
a failed construction or connection leave the state untouched and answer
false; success stores the connection under the broker name. -/
def connect_broker (oracle : BrokerOracle) (st : BState)
    (broker_name : String) (creds : List (String × String)) :
    Bool × BState :=
  match dlookup supported_brokers broker_name with
  | none => (false, st)
  | some info =>
      if validate_credentials info creds then
        if oracle.createOk broker_name creds &&
            oracle.connectOk broker_name creds then
          (true,
           { st with
             connections :=
               dict_insert st.connections broker_name ⟨info.type, true⟩ })
        else (false, st)
      else (false, st)

/-- BrokerService.disconnect_broker: absent names answer false without
mutation; a raising connector teardown is caught and also answers false
before the deletion; otherwise the entry is removed. -/
def disconnect_broker (oracle : BrokerOracle) (st : BState)
    (broker_name : String) : Bool × BState :=
  match dlookup st.connections broker_name with
  | some _ =>
      if oracle.disconnectRaises broker_name then (false, st)
      else (true, { st with connections :=
        st.connections.filter (fun p => p.1 != broker_name) })
  | none => (false, st)

/-- The per-symbol result entries of execute_signals: the connector result
payload, or the error entry written by the per-symbol except handler. -/
inductive SymbolResult where
  | res (success : Bool) (order_id : String) (quantity price : ℚ)
      (error : String)
  | err (msg : String)
deriving DecidableEq

/-- The value of execute_signals: a top-level error payload, or the
per-symbol result map. -/
inductive ExecSignalsResult where
  | serviceError (msg : String)
  | results (items : List (String × SymbolResult))
deriving DecidableEq

/-- One iteration of the symbol loop of execute_signals: a raising
connector call records an error entry for that symbol only; a successful
result is recorded as-is, appending to the trade history when it reports
success. -/
def exec_step (oracle : BrokerOracle) (broker_name : String)
    (acc : List (String × SymbolResult) × List TradeExecution)
    (p : String × TradeSignal) :
    List (String × SymbolResult) × List TradeExecution :=
  match oracle.execTrade broker_name p.1 p.2 with
  | .raise msg => (acc.1 ++ [(p.1, .err msg)], acc.2)
  | .ret ok oid qty price e =>
      (acc.1 ++ [(p.1, .res ok oid qty price e)],
       if ok then acc.2 ++ [⟨broker_name, p.1, p.2.type, qty, price, oid⟩]
       else acc.2)

/-- BrokerService.execute_signals. -/
def execute_signals (oracle : BrokerOracle) (st : BState)
    (broker_name : String) (signals : List (String × TradeSignal)) :
    ExecSignalsResult × BState :=
  match dlookup st.connections broker_name with
  | none => (.serviceError ("No connection to " ++ broker_name), st)
  | some conn =>
      if conn.is_active then
        let r := signals.foldl (exec_step oracle broker_name)
          ([], st.trade_history)
        (.results r.1, { st with trade_history := r.2 })
      else
        (.serviceError ("Connection to " ++ broker_name ++
          " is not active"), st)

/-- C7: the code's required field lists agree with the claim's families on
every catalog entry, and a credentials mapping missing any required field
makes connect_broker answer false with the state untouched and without
consulting the connector oracle at all (result identical under any two
oracles): no connector is constructed and no network I/O attempted. -/
theorem connect_broker_missing_credentials (o1 o2 : BrokerOracle)
    (st : BState) (name : String) (info : BrokerCatalogInfo)
    (creds : List (String × String))
    (hinfo : dlookup supported_brokers name = some info)
    (hmiss : ∃ fld ∈ claim_required info, dlookup creds fld = none) :
    required_fields info = claim_required info ∧
    connect_broker o1 st name creds = (false, st) ∧
    connect_broker o1 st name creds = connect_broker o2 st name creds := by
  have hreq : required_fields info = claim_required info := by
    have hall : ∀ p ∈ supported_brokers,
        required_fields p.2 = claim_required p.2 := by decide
    exact hall (name, info) (dlookup_mem hinfo)
  have hval : validate_credentials info creds = false := by
    obtain ⟨fld, hf, hnone⟩ := hmiss
    rw [← hreq] at hf
    unfold validate_credentials
    rw [Bool.eq_false_iff, ne_eq, List.all_eq_true]
    intro hcontra
    have := hcontra fld hf
    rw [hnone] at this
    simp at this
  refine ⟨hreq, ?_, ?_⟩ <;>
    simp [connect_broker, hinfo, hval]

def oracle_yes : BrokerOracle :=
  ⟨fun _ _ => true, fun _ _ => true, fun _ => false,
   fun _ _ _ => .ret true "" 0 0 ""⟩

def oracle_no : BrokerOracle :=
  ⟨fun _ _ => false, fun _ _ => false, fun _ => true,
   fun _ _ _ => .raise "down"⟩

/-- Witness for C7 at the spec's own example: the MT5-style broker XM
rejects a credentials mapping holding only api_key, with identical outcome
whether the underlying SDK would succeed or fail. -/
theorem connect_broker_missing_credentials_witness :
    required_fields ⟨"forex", "MT5Connector"⟩ =
      claim_required ⟨"forex", "MT5Connector"⟩ ∧
    connect_broker oracle_yes ⟨[], []⟩ "XM" [("api_key", "x")] =
      (false, ⟨[], []⟩) ∧
    connect_broker oracle_yes ⟨[], []⟩ "XM" [("api_key", "x")] =
      connect_broker oracle_no ⟨[], []⟩ "XM" [("api_key", "x")] :=
  connect_broker_missing_credentials oracle_yes oracle_no ⟨[], []⟩ "XM"
    ⟨"forex", "MT5Connector"⟩ [("api_key", "x")] (by decide)
    ⟨"login", by decide, rfl⟩

lemma exec_fold_fst (oracle : BrokerOracle) (name : String)
    (signals : List (String × TradeSignal))
    (acc : List (String × SymbolResult) × List TradeExecution) :
    (signals.foldl (exec_step oracle name) acc).1 =
      acc.1 ++ signals.map (fun p =>
        (p.1, match oracle.execTrade name p.1 p.2 with
          | .raise msg => .err msg
          | .ret ok oid qty price e => .res ok oid qty price e)) := by
  induction signals generalizing acc with
  | nil => simp
  | cons hd tl ih =>
      rw [List.foldl_cons, ih]
      cases h : oracle.execTrade name hd.1 hd.2 <;>
        simp [exec_step, h, List.append_assoc]

/-- C8: execute_signals answers an error payload, not an exception, when
the broker is absent from the connection map or inactive; otherwise its
result map has exactly one entry per requested symbol, the connector
payload where the call returned and an error entry where it raised, so a
raising symbol never aborts the rest of the batch. -/
theorem execute_signals_c8 (oracle : BrokerOracle) (st : BState)
    (name : String) (signals : List (String × TradeSignal)) :
    (dlookup st.connections name = none →
      (execute_signals oracle st name signals).1 =
        .serviceError ("No connection to " ++ name)) ∧
    (∀ conn, dlookup st.connections name = some conn →
      conn.is_active = false →
      (execute_signals oracle st name signals).1 =
        .serviceError ("Connection to " ++ name ++ " is not active")) ∧
    (∀ conn, dlookup st.connections name = some conn →
      conn.is_active = true →
      (execute_signals oracle st name signals).1 =
        .results (signals.map (fun p =>
          (p.1, match oracle.execTrade name p.1 p.2 with
            | .raise msg => .err msg
            | .ret ok oid qty price e => .res ok oid qty price e)))) := by
  refine ⟨?_, ?_, ?_⟩
  · intro h
    simp [execute_signals, h]
  · intro conn hconn hact
    simp [execute_signals, hconn, hact]
  · intro conn hconn hact
    simp only [execute_signals, hconn, hact, if_true]
    rw [exec_fold_fst]
    simp

def exec_oracle : BrokerOracle :=
  ⟨fun _ _ => true, fun _ _ => true, fun _ => false,
   fun _ sym _ => if sym = "EURUSD" then .raise "boom"
     else .ret true "42" 1 100 ""⟩

def st_binance : BState := ⟨[("Binance", ⟨"crypto", true⟩)], []⟩

/-- Witness for C8: with a live Binance connection, a two-symbol batch in
which the EURUSD call raises still reports a per-symbol error for EURUSD
and the successful payload for GBPUSD. -/
theorem execute_signals_c8_witness :
    (execute_signals exec_oracle st_binance "Binance"
        [("EURUSD", ⟨"buy", 1⟩), ("GBPUSD", ⟨"sell", 1⟩)]).1 =
      .results [("EURUSD", .err "boom"),
        ("GBPUSD", .res true "42" 1 100 "")] := by
  rw [(execute_signals_c8 exec_oracle st_binance "Binance"
    [("EURUSD", ⟨"buy", 1⟩), ("GBPUSD", ⟨"sell", 1⟩)]).2.2
    ⟨"crypto", true⟩ rfl rfl]
  simp [exec_oracle]

/-! ### Reachable states of the broker registry (C9) -/

/-- A control-plane operation on the registry. -/
inductive BrokerOp where
  | connect (name : String) (creds : List (String × String))
  | disconnect (name : String)

/-- The state transition of one operation. -/
def apply_op (oracle : BrokerOracle) (st : BState) : BrokerOp → BState
  | .connect n c => (connect_broker oracle st n c).2
  | .disconnect n => (disconnect_broker oracle st n).2

/-- The registry state reached from the initial empty service by a
sequence of operations. -/
def run_ops (oracle : BrokerOracle) (ops : List BrokerOp) : BState :=
  ops.foldl (apply_op oracle) ⟨[], []⟩

lemma map_fst_update {α : Type} (l : List (String × α)) (k : String)
    (v : α) :
    (l.map (fun p => if p.1 = k then (k, v) else p)).map Prod.fst =
      l.map Prod.fst := by
  induction l with
  | nil => rfl
  | cons p rest ih =>
      simp only [List.map_cons, ih]
      by_cases hp : p.1 = k <;> simp [hp]

lemma dict_insert_keys_of_mem {α : Type} (l : List (String × α))
    (k : String) (v : α) (h : (dlookup l k).isSome) :
    (dict_insert l k v).map Prod.fst = l.map Prod.fst := by
  unfold dict_insert
  rw [if_pos h]
  exact map_fst_update l k v

lemma dlookup_isSome_of_key_mem {α : Type} (l : List (String × α))
    (k : String) (h : k ∈ l.map Prod.fst) : (dlookup l k).isSome := by
  induction l with
  | nil => simp at h
  | cons q rest ih =>
      simp only [List.map_cons, List.mem_cons] at h
      unfold dlookup
      split
      · simp
      · next hne =>
          rcases h with h | h
          · exact absurd h.symm hne
          · exact ih h

lemma dict_insert_keys_nodup {α : Type} (l : List (String × α)) (k : String)
    (v : α) (h : (l.map Prod.fst).Nodup) :
    ((dict_insert l k v).map Prod.fst).Nodup := by
  unfold dict_insert
  split
  · rw [map_fst_update]
    exact h
  · next hnone =>
      have hk : k ∉ l.map Prod.fst := fun hmem =>
        hnone (dlookup_isSome_of_key_mem l k hmem)
      simp [List.nodup_append, h, hk]

lemma connections_keys_nodup (oracle : BrokerOracle) (st : BState)
    (op : BrokerOp) (h : (st.connections.map Prod.fst).Nodup) :
    (((apply_op oracle st op).connections.map Prod.fst)).Nodup := by
  cases op with
  | connect n c =>
      show (((connect_broker oracle st n c).2.connections.map
        Prod.fst)).Nodup
      cases hcat : dlookup supported_brokers n with
      | none => simpa only [connect_broker, hcat] using h
      | some info =>
          cases hval : validate_credentials info c with
          | false => simpa only [connect_broker, hcat, hval] using h
          | true =>
              cases hco : oracle.createOk n c && oracle.connectOk n c with
              | false =>
                  simpa only [connect_broker, hcat, hval, hco] using h
              | true =>
                  simp only [connect_broker, hcat, hval, hco]
                  exact dict_insert_keys_nodup st.connections n
                    ⟨info.type, true⟩ h
  | disconnect n =>
      show (((disconnect_broker oracle st n).2.connections.map
        Prod.fst)).Nodup
      cases hcat : dlookup st.connections n with
      | none => simpa only [disconnect_broker, hcat] using h
      | some conn =>
          cases hdr : oracle.disconnectRaises n with
          | true => simpa only [disconnect_broker, hcat, hdr] using h
          | false =>
              simp only [disconnect_broker, hcat, hdr]
              exact ((List.filter_sublist st.connections).map
                Prod.fst).nodup h

/-- C9: every state of the broker registry reachable by connect and
disconnect operations maps each broker name to at most one connection
(the key list of the connection map is duplicate-free), and a successful
reconnect of an already-connected name replaces its entry in place: the
key list is unchanged, no second entry appears. -/
theorem broker_connections_unique (oracle : BrokerOracle)
    (ops : List BrokerOp) :
    (((run_ops oracle ops).connections.map Prod.fst).Nodup) ∧
    (∀ n c, (dlookup (run_ops oracle ops).connections n).isSome →
      (connect_broker oracle (run_ops oracle ops) n c).1 = true →
      (connect_broker oracle (run_ops oracle ops) n c).2.connections.map
          Prod.fst =
        (run_ops oracle ops).connections.map Prod.fst) := by
  have hrun : ∀ (l : List BrokerOp) (st : BState),
      (st.connections.map Prod.fst).Nodup →
      ((l.foldl (apply_op oracle) st).connections.map Prod.fst).Nodup := by
    intro l
    induction l with
    | nil => intro st h; exact h
    | cons op rest ih =>
        intro st h
        rw [List.foldl_cons]
        exact ih _ (connections_keys_nodup oracle st op h)
  constructor
  · exact hrun ops ⟨[], []⟩ (by simp)
  · intro n c hsome hok
    cases hcat : dlookup supported_brokers n with
    | none => simp [connect_broker, hcat] at hok
    | some info =>
        cases hval : validate_credentials info c with
        | false => simp [connect_broker, hcat, hval] at hok
        | true =>
            cases hco : oracle.createOk n c && oracle.connectOk n c with
            | false => simp [connect_broker, hcat, hval, hco] at hok
            | true =>
                simp only [connect_broker, hcat, hval, hco]
                exact dict_insert_keys_of_mem _ n _ hsome

def good_creds : List (String × String) :=
  [("login", "1"), ("password", "p"), ("server", "s")]

def st_xm : BState := run_ops oracle_yes [.connect "XM" good_creds]

/-- Witness for C9: reconnecting XM twice keeps the key list
duplicate-free, and the reconnect replaces the existing entry without
growing the key list. -/
theorem broker_connections_unique_witness :
    ((run_ops oracle_yes [.connect "XM" good_creds,
        .connect "XM" good_creds]).connections.map Prod.fst).Nodup ∧
    (connect_broker oracle_yes st_xm "XM" good_creds).2.connections.map
        Prod.fst = st_xm.connections.map Prod.fst :=
  ⟨(broker_connections_unique oracle_yes [.connect "XM" good_creds,
      .connect "XM" good_creds]).1,
   (broker_connections_unique oracle_yes [.connect "XM" good_creds]).2
      "XM" good_creds (by decide) (by decide)⟩

end QCBot
